import Mathlib

/-!
Shallow embedding of the training-and-publish lifecycle controller in
`src/neurons/miner.py` (the miner entry point: `get_config`,
`load_starting_model`, and `main`).

Conventions of the embedding:
* Python floats are modelled as rationals `ℚ`; the value `math.inf` used to
  initialize `best_avg_loss` (line 331) is modelled by `⊤` in `WithTop ℚ`.
* Fallible code is modelled explicitly: a Python exception becomes an
  `Except`/`Option` error value, and the state returned alongside it reflects
  exactly the effects performed before the raise.
* Side effects relevant to the claims (checkpoint writes, optimizer applies,
  gradient accumulation, telemetry closure, network calls) are recorded as
  explicit event data in the state threaded through each function.
-/

namespace Miner

/-- The configuration fields of `get_config` (miner.py lines 69-167) that the
lifecycle controller reads.  `load_uid` has `argparse` default `None`
(`Option Int`); `load_model_dir` and `load_model` default to `None` and are
tested by Python truthiness, so they are `Option String`. -/
structure Config where
  offline : Bool
  avg_loss_upload_threshold : ℚ
  load_best : Bool
  load_uid : Option Int
  load_model_dir : Option String
  load_model : Option String
  num_epochs : Int
  accumulation_steps : Nat
deriving DecidableEq

/-- Python truthiness of an optional string: `None` and `""` are falsy.
`load_model_dir` and `load_model` are tested this way (lines 216, 222). -/
def strTruthy : Option String → Bool
  | none => false
  | some s => s != ""

/-- The five model sources `load_starting_model` can resolve to
(miner.py lines 180-231). -/
inductive ModelSource
  | bestOnNetwork
  | fromUid (uid : Int)
  | localDir (d : String)
  | localFile (f : String)
  | fromScratch
deriving DecidableEq

/-- Embedding of `load_starting_model` (miner.py lines 180-231): a sequence of
early-return `if` checks, one per source, in the order they appear in the
code.  Only the selector fields of the config determine the outcome. -/
def load_starting_model (c : Config) : ModelSource :=
  if c.load_best then ModelSource.bestOnNetwork
  else
    match c.load_uid with
    | some uid => ModelSource.fromUid uid
    | none =>
      if strTruthy c.load_model_dir then ModelSource.localDir (c.load_model_dir.getD "")
      else if strTruthy c.load_model then ModelSource.localFile (c.load_model.getD "")
      else ModelSource.fromScratch

/-- Following the spec's words (§4.2), for comparison with
`load_starting_model`: the five mutually exclusive selector states listed in
the spec's fixed priority order, each paired with the source it selects; the
final from-scratch state is always set. -/
def specSelectorChain (c : Config) : List (Bool × ModelSource) :=
  [(c.load_best, ModelSource.bestOnNetwork),
   (c.load_uid.isSome, ModelSource.fromUid (c.load_uid.getD 0)),
   (strTruthy c.load_model_dir, ModelSource.localDir (c.load_model_dir.getD "")),
   (strTruthy c.load_model, ModelSource.localFile (c.load_model.getD "")),
   (true, ModelSource.fromScratch)]

/-- Following the spec's words (§4.2): "evaluated in this fixed priority order
(first match wins, independent of how many are set)". -/
def specFirstMatch : List (Bool × ModelSource) → ModelSource
  | [] => ModelSource.fromScratch
  | (b, src) :: rest => if b then src else specFirstMatch rest

/-! ### The publish gate (miner.py lines 406-436) -/

/-- The three publish outcomes the spec names for the block at miner.py
lines 408-436: the `offline` branch, the threshold-skip branch, and the
publish branch. -/
inductive PublishOutcome
  | published
  | skippedThreshold
  | skippedOffline
deriving DecidableEq

/-- The externally visible actions of the publish branch, in order:
`pt.mining.load_local_model` (line 417, reload the best checkpoint from disk)
then `pt.mining.push` (line 421). -/
inductive PublishAction
  | reloadFromDisk
  | push
deriving DecidableEq

/-- Embedding of the end-of-training publish decision (miner.py lines
408-436): `if not config.offline:` then `if best_avg_loss <
config.avg_loss_upload_threshold:` reload-and-push, else skip on threshold;
the outer `else` skips because of offline mode.  `best_avg_loss` may still be
`math.inf` (no epoch ever completed), hence `WithTop ℚ`. -/
def publishGate (offline : Bool) (best_avg_loss : WithTop ℚ) (thresh : ℚ) :
    PublishOutcome × List PublishAction :=
  if !offline then
    if best_avg_loss < (thresh : WithTop ℚ) then
      (PublishOutcome.published, [PublishAction.reloadFromDisk, PublishAction.push])
    else
      (PublishOutcome.skippedThreshold, [])
  else
    (PublishOutcome.skippedOffline, [])

/-! ### Epoch completion and checkpoint writes (miner.py lines 287-288, 331, 389-404) -/

/-- The run state the epoch-end code reads and writes: `best_avg_loss`
(line 331, initialized to `math.inf`) and the ordered list of checkpoint-write
events, each recording the directory passed to `pt.mining.save`. -/
structure RunState where
  best : WithTop ℚ
  saves : List String
deriving DecidableEq

/-- State right after the bootstrap save (miner.py lines 287-288 save the
starting model to `model_dir`; line 331 sets `best_avg_loss = math.inf`). -/
def initRun (model_dir : String) : RunState :=
  { best := ⊤, saves := [model_dir] }

/-- The failure of `avg_loss = epoch_loss / n_batches` (miner.py line 390)
when `n_batches == 0`: Python raises `ZeroDivisionError` there; the spec's
error taxonomy names this failure `EmptyEpochError`. -/
inductive EpochError
  | emptyEpoch
deriving DecidableEq

/-- Embedding of the epoch-end code (miner.py lines 389-404): compute
`avg_loss = epoch_loss / n_batches` (raising when `n_batches == 0`, with the
state exactly as it was — nothing after line 390 runs); then, if
`avg_loss < best_avg_loss`, set `best_avg_loss = avg_loss` and call
`pt.mining.save(model, model_dir)` (lines 396-404). -/
def epochEnd (model_dir : String) (epoch_loss : ℚ) (n_batches : Nat) (s : RunState) :
    RunState × Option EpochError :=
  if n_batches = 0 then
    (s, some EpochError.emptyEpoch)
  else
    let avg_loss : ℚ := epoch_loss / (n_batches : ℚ)
    if (avg_loss : WithTop ℚ) < s.best then
      ({ best := (avg_loss : WithTop ℚ), saves := s.saves ++ [model_dir] }, none)
    else
      (s, none)

/-- The run-level fold of `epochEnd` over a list of completed epochs, each
given as `(epoch_loss, n_batches)`; a raised error stops the loop with the
state reached so far, as the exception propagates out of the `while`. -/
def runEpochsFrom (model_dir : String) (s : RunState) :
    List (ℚ × Nat) → RunState × Option EpochError
  | [] => (s, none)
  | (l, n) :: rest =>
    match epochEnd model_dir l n s with
    | (s1, none) => runEpochsFrom model_dir s1 rest
    | (s1, some err) => (s1, some err)

/-! ### Gradient accumulation inside an epoch (miner.py lines 356-387) -/

/-- The gradient-buffer state of the inner loop: `grad` lists the micro-batch
identities `(epoch, batch index)` whose gradients are currently accumulated in
the optimizer's buffers, and `steps` records, for each optimizer apply
(`optimizer.step()`, line 372), the buffer contents it consumed. -/
structure GradState where
  grad : List (Nat × Nat)
  steps : List (List (Nat × Nat))
deriving DecidableEq

/-- Embedding of one iteration of the batch loop (miner.py lines 360-387) for
micro-batch `i` of epoch `e` with `accumulation_steps = k`:
`loss.backward()` accumulates into the buffer (line 368); then, when
`(i + 1) % accumulation_steps == 0` (line 370), `optimizer.step()` consumes
the buffer and `optimizer.zero_grad()` clears it (lines 372-373). -/
def microBatch (k e i : Nat) (s : GradState) : GradState :=
  let g := s.grad ++ [(e, i)]
  if (i + 1) % k = 0 then
    { grad := [], steps := s.steps ++ [g] }
  else
    { grad := g, steps := s.steps }

/-- The batch loop of one epoch, run over micro-batches `0, …, m - 1`. -/
def epochBatches (k e m : Nat) (s : GradState) : GradState :=
  (List.range m).foldl (fun st i => microBatch k e i st) s

/-- One full epoch of the inner loop: `optimizer.zero_grad()` at the start of
the epoch (miner.py line 358) clears whatever the previous epoch left
accumulated, then the batch loop runs over the `m` micro-batches the loader
yields. -/
def runEpoch (k e m : Nat) (s : GradState) : GradState :=
  epochBatches k e m { s with grad := [] }

/-- The training loop's gradient behaviour across `numEpochs` epochs, where
epoch `e` yields `f e` micro-batches. -/
def runGradEpochs (k : Nat) (f : Nat → Nat) (numEpochs : Nat) : GradState :=
  (List.range numEpochs).foldl (fun s e => runEpoch k e (f e) s)
    { grad := [], steps := [] }

/-! ### The epoch budget (miner.py lines 328, 335, 394) -/

/-- The `while` condition at miner.py line 335:
`epoch_step < config.num_epochs or config.num_epochs == -1`. -/
def loopCond (num_epochs : Int) (epoch_step : Nat) : Bool :=
  decide ((epoch_step : Int) < num_epochs) || decide (num_epochs = -1)

/-- The training loop viewed through `epoch_step` (starts at 0, line 328;
incremented once per iteration, line 394), with explicit fuel so the function
is total: `some s` means the loop exited the `while` with `epoch_step = s`
after `s` iterations, `none` means the given fuel ran out with the condition
still true. -/
def runLoop (num_epochs : Int) : Nat → Nat → Option Nat
  | 0, s => if loopCond num_epochs s then none else some s
  | fuel + 1, s =>
    if loopCond num_epochs s then runLoop num_epochs fuel (s + 1) else some s

/-! ### Startup ordering (miner.py lines 234-288) -/

/-- The externally visible startup phases of `main` (miner.py lines 234-288),
in program order.  `createSubtensor`, `syncMetagraph` and `assertRegistered`
perform chain/network I/O; `loadStartingModel` is the model-loading phase
(and may itself hit the network); `raiseUnknownCompetition` is the
`RuntimeError("No competition found for …")` at line 276, which the spec's
taxonomy names `UnknownCompetition`. -/
inductive StartupEvent
  | createWallet
  | createSubtensor
  | syncMetagraph
  | assertRegistered
  | makeRunDir
  | constraintLookup
  | raiseUnknownCompetition
  | loadTokenizer
  | loadStartingModel
  | saveBootstrap
deriving DecidableEq

/-- The ordered trace of startup phases executed by `main` (miner.py lines
242-288): wallet (242), subtensor (243), metagraph sync (244), registration
check when online (253-255), run-directory creation (258-260), the
constraints lookup (271-273); if the lookup finds nothing, the `RuntimeError`
at line 276 aborts; otherwise tokenizer load (282), starting-model load (283)
and the bootstrap checkpoint save (288) follow. -/
def startupTrace (offline competitionKnown : Bool) : List StartupEvent :=
  [StartupEvent.createWallet, StartupEvent.createSubtensor, StartupEvent.syncMetagraph] ++
    (if offline then [] else [StartupEvent.assertRegistered]) ++
    [StartupEvent.makeRunDir, StartupEvent.constraintLookup] ++
    (if competitionKnown then
      [StartupEvent.loadTokenizer, StartupEvent.loadStartingModel, StartupEvent.saveBootstrap]
    else
      [StartupEvent.raiseUnknownCompetition])

/-! ### How the run exits: `try`/`finally` around the loop (miner.py lines 334-441) -/

/-- How control leaves the `while` loop: `normal` when the loop condition
turns false and execution falls through to the publish block (lines 406-436);
`cancelled` when an exception (operator signal / task cancellation) is raised
inside the loop body and propagates. -/
inductive ExitMode
  | normal
  | cancelled
deriving DecidableEq

/-- The observable state of `main`'s tail: whether the publish block ran (and
with which outcome), and how many times `wandb_run.finish()` executed. -/
structure MainTailState where
  publishOutcome : Option PublishOutcome
  finishCount : Nat
deriving DecidableEq

/-- Python `try`/`finally`: run the body to its result (normal or raised),
then run the cleanup on the state the body left, re-delivering the body's
result. -/
def tryFinally {σ ε α : Type} (body : σ → σ × Except ε α) (cleanup : σ → σ)
    (s : σ) : σ × Except ε α :=
  match body s with
  | (s1, r) => (cleanup s1, r)

/-- The `try` body of miner.py lines 334-436: on a cancelled loop the
exception propagates before the publish block is reached, so no publish
decision is recorded; on normal loop exit the publish block (lines 406-436)
runs with the recorded `best_avg_loss`. -/
def mainBody (mode : ExitMode) (offline : Bool) (best : WithTop ℚ) (thresh : ℚ)
    (s : MainTailState) : MainTailState × Except Unit Unit :=
  match mode with
  | ExitMode.cancelled => (s, Except.error ())
  | ExitMode.normal =>
    ({ s with publishOutcome := some (publishGate offline best thresh).1 }, Except.ok ())

/-- `main`'s tail (miner.py lines 334-441): the `try` body wrapped by the
`finally` block, which calls `wandb_run.finish()` exactly when a wandb run was
opened (`if wandb_run:` at line 440). -/
def mainTail (mode : ExitMode) (offline : Bool) (best : WithTop ℚ) (thresh : ℚ)
    (hasWandb : Bool) : MainTailState × Except Unit Unit :=
  tryFinally (mainBody mode offline best thresh)
    (fun s => if hasWandb then { s with finishCount := s.finishCount + 1 } else s)
    { publishOutcome := none, finishCount := 0 }

/-! ## Helper lemmas -/

theorem epochEnd_best_le (d : String) (l : ℚ) (n : Nat) (s : RunState) :
    (epochEnd d l n s).1.best ≤ s.best := by
  unfold epochEnd
  split
  · exact le_refl _
  · dsimp only
    split
    · exact le_of_lt (by assumption)
    · exact le_refl _

theorem epochEnd_best_strict (d : String) (l : ℚ) (n : Nat) (s : RunState) :
    (epochEnd d l n s).1.best ≠ s.best → (epochEnd d l n s).1.best < s.best := by
  unfold epochEnd
  split
  · intro h; exact absurd rfl h
  · dsimp only
    split
    · intro _; assumption
    · intro h; exact absurd rfl h

theorem runEpochsFrom_best_le (d : String) :
    ∀ (epochs : List (ℚ × Nat)) (s : RunState),
      (runEpochsFrom d s epochs).1.best ≤ s.best := by
  intro epochs
  induction epochs with
  | nil => intro s; exact le_refl _
  | cons hd rest ih =>
    intro s
    obtain ⟨l, n⟩ := hd
    have hle : (epochEnd d l n s).1.best ≤ s.best := epochEnd_best_le d l n s
    unfold runEpochsFrom
    cases h : epochEnd d l n s with
    | mk s1 err =>
      rw [h] at hle
      cases err with
      | none => exact le_trans (ih s1) hle
      | some e => exact hle

theorem epochBatches_succ (k e m : Nat) (s : GradState) :
    epochBatches k e (m + 1) s = microBatch k e m (epochBatches k e m s) := by
  unfold epochBatches
  rw [List.range_succ, List.foldl_append]
  rfl

theorem epochBatches_spec (k e : Nat) (hk : 0 < k) (m : Nat) :
    ∀ s : GradState, s.grad = [] →
      (epochBatches k e m s).grad =
          (List.range' (k * (m / k)) (m - k * (m / k))).map (fun j => (e, j)) ∧
        (epochBatches k e m s).steps.length = s.steps.length + m / k ∧
        ∀ g ∈ (epochBatches k e m s).steps,
          g ∈ s.steps ∨ ∀ p ∈ g, p.1 = e ∧ p.2 < k * (m / k) := by
  induction m with
  | zero =>
    intro s hs
    refine ⟨by simpa [epochBatches] using hs, by simp [epochBatches], ?_⟩
    intro g hg
    exact Or.inl (by simpa [epochBatches] using hg)
  | succ m ih =>
    intro s hs
    obtain ⟨hg, hlen, hsteps⟩ := ih s hs
    rw [epochBatches_succ]
    have ha : k * (m / k) ≤ m := Nat.mul_div_le m k
    unfold microBatch
    by_cases hdiv : (m + 1) % k = 0
    · have hkdvd : k ∣ (m + 1) := Nat.dvd_iff_mod_eq_zero.mpr hdiv
      have hmul : k * ((m + 1) / k) = m + 1 := Nat.mul_div_cancel' hkdvd
      have hdq : (m + 1) / k = m / k + 1 := by
        rw [Nat.succ_div]; simp [hkdvd]
      rw [if_pos hdiv]
      refine ⟨by simp [hmul], by simp [hlen, hdq]; omega, ?_⟩
      intro g hgmem
      rcases List.mem_append.mp hgmem with hgold | hgnew
      · rcases hsteps g hgold with h1 | h2
        · exact Or.inl h1
        · refine Or.inr fun p hp => ?_
          obtain ⟨hpe, hplt⟩ := h2 p hp
          refine ⟨hpe, lt_of_lt_of_le hplt ?_⟩
          exact Nat.mul_le_mul_left k (Nat.div_le_div_right (Nat.le_succ m))
      · have hgeq : g = (epochBatches k e m s).grad ++ [(e, m)] := by
          simpa using hgnew
        refine Or.inr fun p hp => ?_
        rw [hgeq] at hp
        rcases List.mem_append.mp hp with hgr | hsingle
        · rw [hg] at hgr
          obtain ⟨j, hj, hpj⟩ := List.mem_map.mp hgr
          have hjlt : j < m := by
            have := List.mem_range'_1.mp hj
            omega
          refine ⟨by rw [← hpj], ?_⟩
          rw [← hpj, hmul]
          omega
        · have hpm : p = (e, m) := by simpa using hsingle
          refine ⟨by rw [hpm], ?_⟩
          rw [hpm, hmul]
          omega
    · have hnkdvd : ¬ k ∣ (m + 1) := fun hd => hdiv (Nat.dvd_iff_mod_eq_zero.mp hd)
      have hdq : (m + 1) / k = m / k := by
        rw [Nat.succ_div]; simp [hnkdvd]
      rw [if_neg hdiv]
      refine ⟨?_, by simpa [hdq] using hlen, ?_⟩
      · rw [hg, hdq]
        have hsub : m + 1 - k * (m / k) = (m - k * (m / k)) + 1 := by omega
        rw [hsub, List.range'_concat, List.map_append]
        simp
        omega
      · intro g hgmem
        rcases hsteps g hgmem with h1 | h2
        · exact Or.inl h1
        · exact Or.inr (by rw [hdq]; exact h2)

theorem runGradEpochs_succ (k : Nat) (f : Nat → Nat) (N : Nat) :
    runGradEpochs k f (N + 1) = runEpoch k N (f N) (runGradEpochs k f N) := by
  unfold runGradEpochs
  rw [List.range_succ, List.foldl_append]
  rfl

theorem loopCond_nat_iff (N s : Nat) : loopCond (N : Int) s = true ↔ s < N := by
  simp [loopCond]

theorem runLoop_exact (N : Nat) :
    ∀ fuel s : Nat, s ≤ N → N ≤ s + fuel → runLoop (N : Int) fuel s = some N := by
  intro fuel
  induction fuel with
  | zero =>
    intro s h1 h2
    have hsN : s = N := by omega
    subst hsN
    unfold runLoop
    rw [if_neg]
    simp [loopCond_nat_iff]
  | succ fuel ih =>
    intro s h1 h2
    unfold runLoop
    by_cases h : s < N
    · rw [if_pos (by simpa [loopCond_nat_iff] using h)]
      exact ih (s + 1) (by omega) (by omega)
    · have hsN : s = N := by omega
      subst hsN
      rw [if_neg]
      simp [loopCond_nat_iff]

theorem runLoop_unbounded : ∀ fuel s : Nat, runLoop (-1) fuel s = none := by
  intro fuel
  induction fuel with
  | zero => intro s; simp [runLoop, loopCond]
  | succ fuel ih => intro s; simp [runLoop, loopCond, ih]

/-! ## The claims -/

/-- C1: At the end of training, the publish decision is a trichotomy: if
offline mode is set the outcome is `skippedOffline` regardless of
`best_avg_loss`; if online and `best_avg_loss >= avg_loss_upload_threshold`
the outcome is `skippedThreshold`; and the model is published — reload from
disk, then push, in that order — only when online and `best_avg_loss` is
strictly below the threshold. -/
theorem publish_gate_trichotomy (offline : Bool) (best : WithTop ℚ) (thresh : ℚ) :
    (offline = true →
      publishGate offline best thresh = (PublishOutcome.skippedOffline, [])) ∧
    (offline = false → (thresh : WithTop ℚ) ≤ best →
      publishGate offline best thresh = (PublishOutcome.skippedThreshold, [])) ∧
    (offline = false → best < (thresh : WithTop ℚ) →
      publishGate offline best thresh =
        (PublishOutcome.published, [PublishAction.reloadFromDisk, PublishAction.push])) := by
  refine ⟨?_, ?_, ?_⟩
  · intro h; subst h; rfl
  · intro h hle; subst h; simp [publishGate, not_lt.mpr hle]
  · intro h hlt; subst h; simp [publishGate, hlt]

/-- C2: An epoch whose data loader yields zero micro-batches fails when the
average loss is computed (Python's `ZeroDivisionError` at
`epoch_loss / n_batches`, the spec's `EmptyEpochError`), with the run state —
in particular the list of checkpoint writes — exactly as it was before the
epoch-end code ran: the failure occurs before any checkpoint write for that
epoch. -/
theorem empty_epoch_fails_before_save (model_dir : String) (epoch_loss : ℚ)
    (s : RunState) :
    epochEnd model_dir epoch_loss 0 s = (s, some EpochError.emptyEpoch) ∧
    (epochEnd model_dir epoch_loss 0 s).1.saves = s.saves :=
  ⟨rfl, rfl⟩

/-- C3 (amended): on every exit path — normal completion or cancellation —
the `finally` block closes the open telemetry run exactly once; but
cancellation is NOT treated as equivalent to reaching `FINISHED`: the
publish-gate decision is attempted exactly when the loop exits normally, and
a cancelled run records no publish decision at all. -/
theorem loop_exit_cleanup (mode : ExitMode) (offline : Bool) (best : WithTop ℚ)
    (thresh : ℚ) (hasWandb : Bool) :
    ((mainTail mode offline best thresh hasWandb).1.finishCount =
      if hasWandb then 1 else 0) ∧
    ((mainTail mode offline best thresh hasWandb).1.publishOutcome =
      if mode = ExitMode.normal then some (publishGate offline best thresh).1 else none) ∧
    ((mainTail mode offline best thresh hasWandb).2 = Except.ok () ↔
      mode = ExitMode.normal) := by
  cases mode <;> cases hasWandb <;> simp [mainTail, tryFinally, mainBody]

/-- C3 counterexample: a run cancelled mid-loop while online with
`best_avg_loss = 1` below the threshold `2` — a run that, had cancellation
been treated as reaching `FINISHED`, would have published — records no
publish decision at all (the exception skips the publish block), even though
the telemetry session is still closed once. -/
theorem cancelled_run_skips_publish_gate :
    (mainTail ExitMode.cancelled false ((1 : ℚ) : WithTop ℚ) 2 true).1.publishOutcome
        = none ∧
    (mainTail ExitMode.cancelled false ((1 : ℚ) : WithTop ℚ) 2 true).1.finishCount = 1 ∧
    publishGate false ((1 : ℚ) : WithTop ℚ) 2 =
      (PublishOutcome.published, [PublishAction.reloadFromDisk, PublishAction.push]) :=
  ⟨rfl, rfl, by decide⟩

/-- C4 (amended): a run whose competition id has no entry in
`MODEL_CONSTRAINTS_BY_COMPETITION_ID` fails with the `RuntimeError` the spec
names `UnknownCompetition`, and aborts before any tokenizer load, any model
load and any checkpoint write — but only after the initial chain setup:
subtensor creation and metagraph sync (and, when online, the registration
check) have already performed network I/O by the time the lookup runs. -/
theorem unknown_competition_aborts (offline : Bool) :
    (startupTrace offline false).getLast? = some StartupEvent.raiseUnknownCompetition ∧
    StartupEvent.loadStartingModel ∉ startupTrace offline false ∧
    StartupEvent.loadTokenizer ∉ startupTrace offline false ∧
    StartupEvent.saveBootstrap ∉ startupTrace offline false ∧
    StartupEvent.syncMetagraph ∈ startupTrace offline false := by
  cases offline <;> decide

/-- C4 counterexample: in the online startup trace of a run with an unknown
competition id, the metagraph sync — network I/O — occurs strictly before the
`UnknownCompetition` failure, so the failure does not precede all network
I/O as the claim states. -/
theorem network_io_precedes_unknown_competition :
    (startupTrace false false).indexOf StartupEvent.syncMetagraph <
      (startupTrace false false).indexOf StartupEvent.raiseUnknownCompetition ∧
    StartupEvent.raiseUnknownCompetition ∈ startupTrace false false := by
  decide

/-- C5: with `accumulation_steps = k` and an epoch of `m` micro-batches,
exactly `m / k` optimizer-apply events occur in the epoch; an apply happens
on micro-batch `i` exactly when `(i + 1) % k = 0` (1-indexed multiples of
`k`); and the leftover micro-batches beyond the last multiple of `k` — those
with indices in `[k * (m / k), m)` — are exactly what remains accumulated in
the gradient buffer, never having triggered an apply within the epoch. -/
theorem optimizer_apply_count (k m : Nat) (hk : 0 < k) :
    (runEpoch k 0 m { grad := [], steps := [] }).steps.length = m / k ∧
    (∀ (e i : Nat) (s : GradState),
      (microBatch k e i s).steps.length =
        s.steps.length + if (i + 1) % k = 0 then 1 else 0) ∧
    (runEpoch k 0 m { grad := [], steps := [] }).grad =
      (List.range' (k * (m / k)) (m - k * (m / k))).map (fun j => (0, j)) := by
  obtain ⟨hg, hlen, -⟩ :=
    epochBatches_spec k 0 hk m { grad := [], steps := [] } rfl
  refine ⟨by simpa [runEpoch] using hlen, ?_, by simpa [runEpoch] using hg⟩
  intro e i s
  unfold microBatch
  by_cases h : (i + 1) % k = 0
  · simp [h]
  · simp [h]

/-- C5 witness: `k = 3`, `m = 7` — two applies (`7 / 3 = 2`), and the leftover
batch `6` is what remains accumulated. -/
theorem optimizer_apply_count_witness :
    (runEpoch 3 0 7 { grad := [], steps := [] }).steps.length = 7 / 3 ∧
    (∀ (e i : Nat) (s : GradState),
      (microBatch 3 e i s).steps.length =
        s.steps.length + if (i + 1) % 3 = 0 then 1 else 0) ∧
    (runEpoch 3 0 7 { grad := [], steps := [] }).grad =
      (List.range' (3 * (7 / 3)) (7 - 3 * (7 / 3))).map (fun j => (0, j)) := by
  exact optimizer_apply_count 3 7 (by decide)

/-- C6: `best_avg_loss` starts at `+∞` (`math.inf`), each completed epoch can
only lower it, it changes only by strictly decreasing, and over any sequence
of completed epochs (stopping at a raised error) the final value is at most
the initial one. -/
theorem best_avg_loss_monotone (model_dir : String) :
    (initRun model_dir).best = ⊤ ∧
    (∀ (epoch_loss : ℚ) (n : Nat) (s : RunState),
      (epochEnd model_dir epoch_loss n s).1.best ≤ s.best) ∧
    (∀ (epoch_loss : ℚ) (n : Nat) (s : RunState),
      (epochEnd model_dir epoch_loss n s).1.best ≠ s.best →
        (epochEnd model_dir epoch_loss n s).1.best < s.best) ∧
    (∀ (s : RunState) (epochs : List (ℚ × Nat)),
      (runEpochsFrom model_dir s epochs).1.best ≤ s.best) :=
  ⟨rfl, fun l n s => epochEnd_best_le model_dir l n s,
    fun l n s => epochEnd_best_strict model_dir l n s,
    fun s epochs => runEpochsFrom_best_le model_dir epochs s⟩

/-- C7: after the bootstrap save (which initializes the run directory's
checkpoint), the epoch-end code writes a checkpoint exactly when the
just-completed epoch's average loss is strictly below the pre-epoch
`best_avg_loss`, and every checkpoint write targets the same run directory
`model_dir` — the previous checkpoint is overwritten in place. -/
theorem checkpoint_write_iff_improvement (model_dir : String) (epoch_loss : ℚ)
    (n_batches : Nat) (s : RunState) (hn : n_batches ≠ 0) :
    ((epochEnd model_dir epoch_loss n_batches s).1.saves ≠ s.saves ↔
      ((epoch_loss / (n_batches : ℚ) : ℚ) : WithTop ℚ) < s.best) ∧
    (∀ p ∈ (epochEnd model_dir epoch_loss n_batches s).1.saves,
      p ∈ s.saves ∨ p = model_dir) ∧
    initRun model_dir = { best := ⊤, saves := [model_dir] } := by
  unfold epochEnd
  rw [if_neg hn]
  by_cases h : ((epoch_loss / (n_batches : ℚ) : ℚ) : WithTop ℚ) < s.best
  · rw [if_pos h]
    refine ⟨iff_of_true (by simp) h, ?_, rfl⟩
    intro p hp
    rcases List.mem_append.mp hp with h1 | h2
    · exact Or.inl h1
    · exact Or.inr (by simpa using h2)
  · rw [if_neg h]
    exact ⟨iff_of_false (by simp) h, fun p hp => Or.inl hp, rfl⟩

/-- C7 witness: a first real epoch (`epoch_loss = 1` over `n_batches = 2`)
after the bootstrap: its average `1 / 2` beats `⊤`, so a write occurs, and
every written path is the run directory. -/
theorem checkpoint_write_iff_improvement_witness :
    (((epochEnd "d" 1 2 (initRun "d")).1.saves ≠ (initRun "d").saves ↔
      (((1 : ℚ) / ((2 : Nat) : ℚ) : ℚ) : WithTop ℚ) < (initRun "d").best) ∧
      (∀ p ∈ (epochEnd "d" 1 2 (initRun "d")).1.saves,
        p ∈ (initRun "d").saves ∨ p = "d") ∧
      initRun "d" = { best := ⊤, saves := ["d"] }) := by
  exact checkpoint_write_iff_improvement "d" 1 2 (initRun "d") (by decide)

/-- C8: `load_starting_model` resolves the model source by the fixed priority
order best-on-network, specific-participant, local-directory, local-file,
from-scratch — it equals the spec's first-match evaluation of the selector
chain for every config — and whenever the best-on-network selector is set
(no matter which other selectors, such as local-file, are also set) it
resolves to best-on-network. -/
theorem model_source_priority (c : Config) :
    load_starting_model c = specFirstMatch (specSelectorChain c) ∧
    (c.load_best = true → load_starting_model c = ModelSource.bestOnNetwork) := by
  constructor
  · unfold load_starting_model specFirstMatch specSelectorChain
    by_cases hb : c.load_best
    · simp [hb]
    · cases h : c.load_uid with
      | some uid => simp [hb, h, specFirstMatch]
      | none => simp [hb, h, specFirstMatch]
  · intro hb
    simp [load_starting_model, hb]

/-- C9: the `while` condition gives every budget `N ≥ 0` exactly `N` epoch
iterations — with any fuel of at least `N`, the loop exits with
`epoch_step = N` after `N` iterations — while the sentinel budget `-1` keeps
the condition true forever: no amount of fuel makes the loop terminate via
budget exhaustion. -/
theorem epoch_budget_semantics (N : Nat) :
    (∀ fuel : Nat, N ≤ fuel → runLoop (N : Int) fuel 0 = some N) ∧
    (∀ fuel s : Nat, runLoop (-1) fuel s = none) :=
  ⟨fun fuel h => runLoop_exact N fuel 0 (Nat.zero_le N) (by omega),
    fun fuel s => runLoop_unbounded fuel s⟩

/-- C10: because `optimizer.zero_grad()` runs at the start of every epoch,
every gradient contribution consumed by any optimizer apply — in any epoch of
the run — comes from a micro-batch strictly before its own epoch's last apply
boundary `k * (m / k)`: the leftover tail micro-batches of an epoch are
discarded and never contribute to any optimizer step, in that epoch or any
later one. -/
theorem tail_batches_never_in_optimizer_step (k : Nat) (f : Nat → Nat) (N : Nat)
    (hk : 0 < k) :
    ∀ g ∈ (runGradEpochs k f N).steps, ∀ p ∈ g, p.2 < k * (f p.1 / k) := by
  induction N with
  | zero =>
    intro g hg
    simp [runGradEpochs] at hg
  | succ N ih =>
    rw [runGradEpochs_succ]
    intro g hg p hp
    obtain ⟨-, -, hsteps⟩ :=
      epochBatches_spec k N hk (f N) { runGradEpochs k f N with grad := [] } rfl
    unfold runEpoch at hg
    rcases hsteps g hg with hold | hnew
    · exact ih g hold p hp
    · obtain ⟨hpe, hplt⟩ := hnew p hp
      rw [hpe]
      exact hplt

/-- C10 witness: `k = 2`, two epochs of 3 micro-batches each — the step
consuming batches 0 and 1 of epoch 0 exists, and its latest contribution,
batch 1, lies before the boundary `2 * (3 / 2) = 2`. -/
theorem tail_batches_never_in_optimizer_step_witness :
    [((0 : Nat), (0 : Nat)), (0, 1)] ∈ (runGradEpochs 2 (fun _ => 3) 2).steps ∧
    (1 : Nat) < 2 * (3 / 2) :=
  ⟨by decide, by
    exact tail_batches_never_in_optimizer_step 2 (fun _ => 3) 2 (by decide)
      [(0, 0), (0, 1)] (by decide) (0, 1) (by decide)⟩

end Miner
